import Mathlib

/-!
Verification of the qrngenv front-end pipeline against its specification.

The repository is browser-side JavaScript. The definitions below are a shallow
embedding of the pure data transformations of the source files:

* src/frontend/app.js        (formatNumber, initGenerateHandler validation)
* src/frontend/assets/app.js (renderDistributionGraph, initGenerateHandler)
* src/frontend/script.js     (genBtn click handler, renderHistogram)
* src/unnamed/part_001       (formatNumber, updateStatistics, initGenerateHandler,
                              renderDistributionGraph)
* src/unnamed/part_002       (clearBtn and download click handlers)
* src/unnamed/part_003       (simulateQuantumCircuit)

JavaScript numbers holding small integers are modelled by Int (or Nat); a value
that is not a finite number (NaN after parseInt, or a non-finite entry) is
modelled by the none case of Option.  Math.floor of an exact quotient is
modelled by floor division; DOM and network effects are modelled by explicit
inputs and outputs.
-/

/- ## Number formatting (JS Number.prototype.toString, padStart, parseInt) -/

/-- Digit characters produced by JS Number.prototype.toString: 0-9 then lowercase a-f. -/
def digitChar (d : Nat) : Char :=
  if d < 10 then Char.ofNat (48 + d) else Char.ofNat (87 + d)

/-- Fuel-indexed digit extraction (most significant digit first), accumulating into acc.
The fuel argument makes the recursion structural; with fuel at least n it computes
the base-b digits of n. -/
def jsDigitsAux (base : Nat) : Nat → Nat → List Nat → List Nat
  | 0, _, acc => acc
  | fuel + 1, n, acc =>
    if n = 0 then acc else jsDigitsAux base fuel (n / base) (n % base :: acc)

/-- Digit list (most significant first) of n in the given base, as produced by
JS Number.prototype.toString(base); JS renders 0 as the single digit 0. -/
def jsDigits (base n : Nat) : List Nat :=
  if n = 0 then [0] else jsDigitsAux base n n []

/-- JS n.toString(base) for a non-negative number, as a list of characters. -/
def natToStringBase (base n : Nat) : List Char :=
  (jsDigits base n).map digitChar

/-- JS n.toString(base): a negative number renders as a minus sign followed by the
digits of its absolute value. -/
def intToStringBase (base : Nat) (n : Int) : List Char :=
  if n < 0 then '-' :: natToStringBase base n.natAbs else natToStringBase base n.natAbs

/-- JS String.prototype.toUpperCase on an ASCII character. -/
def jsToUpper (c : Char) : Char :=
  if 97 ≤ c.toNat ∧ c.toNat ≤ 122 then Char.ofNat (c.toNat - 32) else c

/-- JS String.prototype.padStart: pad on the left with the given character up to
the given width. -/
def padStart (w : Nat) (c : Char) (s : List Char) : List Char :=
  List.replicate (w - s.length) c ++ s

/-- Numeric value of an ASCII digit or letter, as read back by JS parseInt. -/
def charVal (c : Char) : Nat :=
  if 97 ≤ c.toNat then c.toNat - 87
  else if 65 ≤ c.toNat then c.toNat - 55
  else c.toNat - 48

/-- JS parseInt(s, base) on a plain digit string (no sign, no junk, no 0x prefix). -/
def parseIntBase (base : Nat) (s : List Char) : Nat :=
  s.foldl (fun a c => a * base + charVal c) 0

/-- Value of a big-endian digit list. -/
def digitsVal (base : Nat) (l : List Nat) : Nat :=
  l.foldl (fun a d => a * base + d) 0

/-- The three output formats of formatNumber in src/frontend/app.js. -/
inductive NumberFormat
  | binary
  | hexadecimal
  | decimal
deriving DecidableEq

/-- Embedding of formatNumber from src/frontend/app.js (lines 53-65):
binary is toString(2) padded to bits with zeros, hexadecimal is
toString(16).toUpperCase() padded to ceil(bits/4) with zeros, decimal is
toString().  There is no range check of any kind. -/
def formatNumber (num : Int) (format : NumberFormat) (bits : Nat) : List Char :=
  match format with
  | .binary => padStart bits '0' (intToStringBase 2 num)
  | .hexadecimal => padStart ((bits + 3) / 4) '0' ((intToStringBase 16 num).map jsToUpper)
  | .decimal => intToStringBase 10 num

/-- Embedding of formatNumber from src/unnamed/part_001 (lines 63-68): the decimal
string padded with zeros to the width of the decimal string of 2^numBits - 1.
There is no range check. -/
def v2FormatNumber (number : Int) (numBits : Nat) : List Char :=
  let maxValue := 2 ^ numBits - 1
  let width := (natToStringBase 10 maxValue).length
  padStart width '0' (intToStringBase 10 number)

/- ## Backend payload model -/

/-- Statistics object shape (mean/std/min/max), every field optional as in a raw
JSON payload.  Numeric values are modelled as integers; only selection and
presence of fields matter to the claims. -/
structure StatFields where
  mean : Option Int
  std : Option Int
  min : Option Int
  max : Option Int
deriving DecidableEq

/-- The parameters object used by src/frontend/script.js (data.parameters.num_bits,
data.parameters.max_value). -/
structure GenParameters where
  num_bits : Option Int
  max_value : Option Int
deriving DecidableEq

/-- A loosely-typed /generate response payload: every field the front ends read is
optional, a missing JSON key being none. -/
structure GenPayload where
  status : Option String
  message : Option String
  numbers : Option (List Int)
  statistics : Option StatFields
  stats : Option StatFields
  mean : Option Int
  std : Option Int
  min : Option Int
  max : Option Int
  num_bits : Option Int
  num_samples : Option Int
  source : Option String
  parameters : Option GenParameters
deriving DecidableEq

/-- The payload with every field absent. -/
def emptyPayload : GenPayload :=
  { status := none, message := none, numbers := none, statistics := none,
    stats := none, mean := none, std := none, min := none, max := none,
    num_bits := none, num_samples := none, source := none, parameters := none }

/-- Outcome of the awaited fetch of /generate: a network or HTTP-status failure
(the thrown error of the api helper), or a parsed JSON payload. -/
inductive FetchOutcome
  | failure (message : String)
  | success (data : GenPayload)
deriving DecidableEq

/-- Embedding of the genBtn click handler of src/frontend/script.js (lines 80-105),
from the await of api('/generate') onwards.  On fetch failure the catch block
shows the error and lastResponse keeps its prior value.  On success the handler
assigns lastResponse = data and only then renders; renderStats throws a TypeError
when data.statistics is undefined (it reads stats.mean), the renderTable call
throws when data.parameters is undefined (it reads data.parameters.num_bits), and
renderTable throws when data.numbers is undefined (it calls numbers.map); each
such throw is caught and shown, after lastResponse has already been overwritten.
The result is the new lastResponse slot paired with the error message shown, if
any. -/
def scriptGenClick (lastResponse : Option GenPayload) (outcome : FetchOutcome) :
    Option GenPayload × Option String :=
  match outcome with
  | .failure message => (lastResponse, some message)
  | .success data =>
    let last := some data
    match data.statistics with
    | none => (last, some "TypeError: cannot read mean of undefined")
    | some _ =>
      match data.parameters with
      | none => (last, some "TypeError: cannot read num_bits of undefined")
      | some _ =>
        match data.numbers with
        | none => (last, some "TypeError: cannot read map of undefined")
        | some _ => (last, none)

/-- Embedding of the generateBtn click handler of src/unnamed/part_001
(lines 356-415), from the await of generateRandomNumbers onwards.  A fetch
failure, or a payload whose status field is not the string success, throws
before lastResponse is assigned, so the slot keeps its prior value; otherwise
lastResponse = data is assigned and the remaining rendering is defensive (it
never throws: every field access is guarded with a fallback).  The result is the
new lastResponse slot paired with the error message shown, if any. -/
def v2GenClick (lastResponse : Option GenPayload) (outcome : FetchOutcome) :
    Option GenPayload × Option String :=
  match outcome with
  | .failure message => (lastResponse, some message)
  | .success data =>
    if data.status = some "success" then
      (some data, none)
    else
      (lastResponse, some ((data.message).getD "Generation error"))

/- ## Request builders (validation before the network call) -/

/-- Outcome of a generate click before the network layer: either a validation
error shown to the user (and no network call), or a request sent to the backend
with the given parameters. -/
inductive BuildOutcome
  | error (message : String)
  | request (num_bits num_samples : Int)
deriving DecidableEq

/-- Embedding of the validation part of initGenerateHandler in
src/frontend/app.js (lines 228-240).  The parsed inputs are Option Int,
none standing for NaN.  Out-of-range bits or samples produce a toast error and
an early return before apiPost is invoked. -/
def frontendBuildRequest (num_bits num_samples : Option Int) : BuildOutcome :=
  match num_bits with
  | none => .error "Number of bits must be between 1 and 16"
  | some b =>
    if b < 1 ∨ 16 < b then .error "Number of bits must be between 1 and 16"
    else
      match num_samples with
      | none => .error "Number of samples must be between 1 and 5000"
      | some s =>
        if s < 1 ∨ 5000 < s then .error "Number of samples must be between 1 and 5000"
        else .request b s

/-- Embedding of the validation part of initGenerateHandler in
src/frontend/assets/app.js (lines 223-240).  NaN in either input is rejected;
then numBits below 1 is CLAMPED to 1 (not rejected); numBits above 16 is
rejected; samples outside 1..5000 are rejected; otherwise the backend is called
with the (possibly clamped) values. -/
def assetsBuildRequest (numBits numSamples : Option Int) : BuildOutcome :=
  match numBits, numSamples with
  | some b0, some s =>
    let b := if b0 < 1 then 1 else b0
    if 16 < b then
      .error "numBits too large for safe visualization. Max allowed is 16."
    else if s < 1 ∨ 5000 < s then
      .error "Quantity must be between 1 and 5000"
    else .request b s
  | _, _ => .error "Please enter valid numeric values."

/- ## Statistics extraction (src/unnamed/part_001) -/

/-- The argument passed to updateStatistics: either a plain statistics object or
the whole payload (the JS value data.stats ?? data.statistics ?? data). -/
inductive StatsSource
  | obj (s : StatFields)
  | payload (p : GenPayload)
deriving DecidableEq

/-- Embedding of the statsCandidate selection in the success path of
initGenerateHandler of src/unnamed/part_001 (line 387):
const stats = data.stats ?? data.statistics ?? data. -/
def genStatsCandidate (data : GenPayload) : StatsSource :=
  match data.stats with
  | some s => .obj s
  | none =>
    match data.statistics with
    | some s => .obj s
    | none => .payload data

/-- Embedding of updateStatistics of src/unnamed/part_001 (lines 73-88): the
displayed statistics object is s.statistics ?? s.stats ?? s, where s is the
candidate it was called with; a plain statistics object has no statistics or
stats member, so it is selected itself.  Values are then read off that object
with a ?? 0 fallback at display time (not modelled; only the selected object
matters here).  Note that nothing is ever computed from the numbers array. -/
def updateStatisticsSelect (s : StatsSource) : StatFields :=
  match s with
  | .obj o => o
  | .payload p =>
    match p.statistics with
    | some o => o
    | none =>
      match p.stats with
      | some o => o
      | none => { mean := p.mean, std := p.std, min := p.min, max := p.max }

/-- The statistics object the part_001 generate handler ends up displaying for a
given payload. -/
def displayedStatistics (data : GenPayload) : StatFields :=
  updateStatisticsSelect (genStatsCandidate data)

/- ## Histograms -/

/-- Increment of a JS counts array at index i: counts[i]++ on an index known to
be inside the array (List.set leaves the list unchanged out of bounds; every use
below is guarded so that i is in bounds). -/
def bump (counts : List Nat) (i : Nat) : List Nat :=
  counts.set i (counts.getD i 0 + 1)

/-- One pass over the input recording, for each element, which bucket (if any)
its guard-and-index function assigns, starting from an initial counts array.
This is the shape of every numbers.forEach counting loop in the sources. -/
def tally {α : Type} (f : α → Option Nat) (xs : List α) (init : List Nat) : List Nat :=
  xs.foldl (fun counts x =>
    match f x with
    | some i => bump counts i
    | none => counts) init

/-- Math.max(0, Math.min(255, idx)) followed by use as an array index. -/
def clampBucket (idx : Int) : Nat :=
  (max 0 (min 255 idx)).toNat

/-- Math.floor((n / maxValue) * (BUCKETS - 1)) with BUCKETS = 256, in exact
arithmetic: the floor of the rational 255 * n / maxValue. -/
def bucketIdx (n : Int) (maxValue : Nat) : Int :=
  Int.fdiv (n * 255) maxValue

/-- JS Math.round(a / b) for non-negative a and positive b, in exact arithmetic:
round half up. -/
def jsRound (a b : Nat) : Nat :=
  (2 * a + b) / (2 * b)

/-- Bucket label of src/unnamed/part_001 renderDistributionGraph (lines 191-195):
Math.round((i / 256) * maxValue) en-dash Math.round(((i + 1) / 256) * maxValue). -/
def v2BucketLabel (maxValue i : Nat) : List Char :=
  natToStringBase 10 (jsRound (i * maxValue) 256) ++
    '–' :: natToStringBase 10 (jsRound ((i + 1) * maxValue) 256)

/-- The labels and counts handed to the Chart constructor. -/
structure Histogram where
  labels : List (List Char)
  counts : List Nat
deriving DecidableEq

/-- The bucket threshold of src/unnamed/part_001. -/
def BUCKET_THRESHOLD_BITS : Nat := 12

/-- Embedding of renderDistributionGraph of src/unnamed/part_001 (lines 168-210).
The numbers input models the array after map(Number): a none entry is a
non-finite number and is removed by the filter(Number.isFinite) prefilter.
Returns none when parseInt of numBits is NaN or below 1 (the early return).
Exact branch (bits at most 12 and maxValue at most 4096): one bucket per value,
counting only n with 0 <= n <= maxValue, labels the decimal value strings.
Bucketed branch: 256 buckets; values outside [0, maxValue] are skipped by the
guard, the rest land in bucket clamp(floor(n / maxValue * 255)). -/
def v2RenderDistributionGraph (numbers : List (Option Int)) (numBits : Option Int) :
    Option Histogram :=
  match numBits with
  | none => none
  | some bits =>
    if bits < 1 then none
    else
      let bitsN := bits.toNat
      let nums : List Int := numbers.filterMap id
      let maxValue : Nat := 2 ^ bitsN - 1
      if bitsN ≤ BUCKET_THRESHOLD_BITS ∧ maxValue ≤ 4096 then
        let counts := tally
          (fun n => if 0 ≤ n ∧ n ≤ (maxValue : Int) then some n.toNat else none)
          nums (List.replicate (maxValue + 1) 0)
        some { labels := (List.range counts.length).map (natToStringBase 10),
               counts := counts }
      else
        let counts := tally
          (fun n =>
            if n < 0 ∨ (maxValue : Int) < n then none
            else some (clampBucket (bucketIdx n maxValue)))
          nums (List.replicate 256 0)
        some { labels := (List.range 256).map (v2BucketLabel maxValue),
               counts := counts }

/-- Embedding of renderDistributionGraph of src/frontend/assets/app.js
(lines 73-158).  Same structure as the part_001 version except that the input is
not prefiltered and, crucially, the bucketed branch guards only on
Number.isFinite: a finite value OUTSIDE [0, maxValue] is still counted, clamped
into bucket 0 or 255. -/
def assetsRenderDistributionGraph (numbers : List (Option Int)) (numBits : Option Int) :
    Option Histogram :=
  match numBits with
  | none => none
  | some bits =>
    if bits < 1 then none
    else
      let bitsN := bits.toNat
      let maxValue : Nat := 2 ^ bitsN - 1
      if bitsN ≤ 12 ∧ maxValue ≤ 4096 then
        let counts := tally
          (fun x =>
            match x with
            | some n => if 0 ≤ n ∧ n ≤ (maxValue : Int) then some n.toNat else none
            | none => none)
          numbers (List.replicate (maxValue + 1) 0)
        some { labels := (List.range (maxValue + 1)).map (natToStringBase 10),
               counts := counts }
      else
        let counts := tally
          (fun x =>
            match x with
            | some n => some (clampBucket (bucketIdx n maxValue))
            | none => none)
          numbers (List.replicate 256 0)
        some { labels := (List.range 256).map (v2BucketLabel maxValue),
               counts := counts }

/- ## Quantum circuit simulation (src/unnamed/part_003) -/

/-- The unsigned 32-bit pattern of a JS number entering a bitwise operator
(ECMAScript ToUint32): the value modulo 2^32. -/
def toUint32 (n : Int) : Nat :=
  (n % 2 ^ 32).toNat

/-- Reading a 32-bit pattern back as a signed JS number (ECMAScript ToInt32):
patterns at or above 2^31 are negative. -/
def toInt32 (n : Int) : Int :=
  let m := n % 2 ^ 32
  if m < 2 ^ 31 then m else m - 2 ^ 32

/-- The JS left-shift operator a << b: shift the 32-bit pattern of a by b mod 32
and reinterpret as a signed 32-bit integer. -/
def jsShiftLeft (a : Int) (b : Nat) : Int :=
  toInt32 ((toUint32 a <<< (b % 32) : Nat) : Int)

/-- The JS bitwise-or operator a | b: or the 32-bit patterns and reinterpret as a
signed 32-bit integer. -/
def jsOr (a b : Int) : Int :=
  toInt32 ((toUint32 a ||| toUint32 b : Nat) : Int)

/-- Embedding of simulateQuantumCircuit of src/unnamed/part_003 (lines 39-60).
The Math.random() < 0.5 draw for sample i and bit position bit is modelled by
the oracle randBit i bit; the sampled number ORs in 1 << bit for each set bit
below numBits.  The source's |= and << are the 32-bit wrapping JS operators, so
they are modelled with the int32 semantics above: for bit = 31 the constant
1 << 31 is already negative. -/
def simulateQuantumCircuit (numBits numSamples : Nat) (randBit : Nat → Nat → Bool) :
    List Int :=
  (List.range numSamples).map fun i =>
    (List.range numBits).foldl
      (fun quantumNumber bit =>
        if randBit i bit then jsOr quantumNumber (jsShiftLeft 1 bit) else quantumNumber) 0

/- ## Clear and export handlers (src/unnamed/part_002) -/

/-- The page state touched by the part_002 handlers: the last /generate response,
the three input fields, and the display state (card visibility, table body,
chart object). -/
structure Part2State where
  lastResponse : Option GenPayload
  numBitsField : Int
  numSamplesField : Int
  baseUrlField : String
  errorHidden : Bool
  statsHidden : Bool
  chartHidden : Bool
  tableHidden : Bool
  sourceHidden : Bool
  numbersBody : String
  chartExists : Bool
deriving DecidableEq

/-- Embedding of the clearBtn click handler of src/unnamed/part_002
(lines 124-133): hide the error box and the stats/chart/table cards and the
source badge, empty the table body, destroy the chart, and null the
lastResponse slot.  The input fields are not touched. -/
def part2Clear (st : Part2State) : Part2State :=
  { st with
    errorHidden := true
    statsHidden := true
    chartHidden := true
    tableHidden := true
    sourceHidden := true
    numbersBody := ""
    chartExists := false
    lastResponse := none }

/-- Embedding of the downloadJson click handler of src/unnamed/part_002
(lines 135-138): if no lastResponse is held it returns without any download;
otherwise it downloads qrng_response.json whose content is the serialized
response (the payload value stands for its JSON.stringify rendering). -/
def part2DownloadJson (st : Part2State) : Option (String × GenPayload) :=
  match st.lastResponse with
  | none => none
  | some r => some ("qrng_response.json", r)

/-- One CSV data row of the part_002 downloadCsv handler:
index+1, decimal, binary padded to bits. -/
def csvRow (bits : Nat) (i : Nat) (n : Int) : List Char :=
  natToStringBase 10 (i + 1) ++
    ',' :: intToStringBase 10 n ++
      ',' :: padStart bits '0' (intToStringBase 2 n)

/-- Embedding of the downloadCsv click handler of src/unnamed/part_002
(lines 140-147): if no lastResponse is held it returns without any download;
otherwise it downloads qrng_numbers.csv with a header row followed by one row
per number, bits taken from the response or else the numBits input field. -/
def part2DownloadCsv (st : Part2State) : Option (String × List (List Char)) :=
  match st.lastResponse with
  | none => none
  | some r =>
    let numbers := r.numbers.getD []
    let bits := (r.num_bits.getD st.numBitsField).toNat
    some ("qrng_numbers.csv",
      "index,decimal,binary".toList ::
        (numbers.enum.map fun p => csvRow bits p.1 p.2))

/- ## Helper lemmas: digit strings and parsing -/

theorem jsDigitsAux_eq_digits (base : Nat) (hb : 2 ≤ base) :
    ∀ (fuel n : Nat) (acc : List Nat), n ≤ fuel →
      jsDigitsAux base fuel n acc = (Nat.digits base n).reverse ++ acc := by
  intro fuel
  induction fuel with
  | zero =>
    intro n acc hn
    interval_cases n
    simp [jsDigitsAux]
  | succ fuel ih =>
    intro n acc hn
    by_cases h0 : n = 0
    · subst h0; simp [jsDigitsAux]
    · have hpos : 0 < n := Nat.pos_of_ne_zero h0
      have hdiv : n / base < n := Nat.div_lt_self hpos (by omega)
      rw [jsDigitsAux, if_neg h0, ih _ _ (by omega),
        Nat.digits_of_two_le_of_pos hb hpos]
      simp

theorem jsDigits_eq (base n : Nat) (hb : 2 ≤ base) (hn : 0 < n) :
    jsDigits base n = (Nat.digits base n).reverse := by
  rw [jsDigits, if_neg (by omega)]
  simpa using jsDigitsAux_eq_digits base hb n n [] le_rfl

theorem jsDigits_lt_base (base n : Nat) (hb : 2 ≤ base) :
    ∀ d ∈ jsDigits base n, d < base := by
  intro d hd
  rcases Nat.eq_zero_or_pos n with h0 | hpos
  · subst h0
    simp [jsDigits] at hd
    omega
  · rw [jsDigits_eq base n hb hpos, List.mem_reverse] at hd
    exact Nat.digits_lt_base (by omega) hd

theorem jsDigits_length_le (base n k : Nat) (hb : 2 ≤ base) (hk : 1 ≤ k)
    (hn : n < base ^ k) : (jsDigits base n).length ≤ k := by
  rcases Nat.eq_zero_or_pos n with h0 | hpos
  · subst h0
    simp [jsDigits]
    omega
  · rw [jsDigits_eq base n hb hpos, List.length_reverse]
    by_contra hlen
    push_neg at hlen
    have h1 : base ^ (Nat.digits base n).length ≤ base * n :=
      Nat.base_pow_length_digits_le base n (by omega) (by omega)
    have h2 : base ^ (k + 1) ≤ base ^ (Nat.digits base n).length :=
      Nat.pow_le_pow_right (by omega) (by omega)
    have h3 : base * n < base * base ^ k :=
      mul_lt_mul_of_pos_left hn (by omega)
    rw [← pow_succ'] at h3
    omega

theorem jsDigits_length_pos (base n : Nat) (hb : 2 ≤ base) (hn : base ^ k ≤ n) :
    k < (jsDigits base n).length := by
  have hpos : 0 < n := lt_of_lt_of_le (Nat.pos_pow_of_pos k (by omega)) hn
  rw [jsDigits_eq base n hb hpos, List.length_reverse]
  by_contra hlen
  push_neg at hlen
  have h1 : n < base ^ (Nat.digits base n).length :=
    Nat.lt_base_pow_length_digits (by omega)
  have h2 : base ^ (Nat.digits base n).length ≤ base ^ k :=
    Nat.pow_le_pow_right (by omega) hlen
  omega

theorem digitsVal_append_zeros (base k : Nat) (l : List Nat) :
    digitsVal base (List.replicate k 0 ++ l) = digitsVal base l := by
  induction k with
  | zero => simp
  | succ k ih =>
    simp only [List.replicate_succ, List.cons_append, digitsVal, List.foldl_cons,
      Nat.zero_mul, Nat.zero_add] at ih ⊢
    exact ih

theorem foldl_mul_add_reverse (base : Nat) :
    ∀ (L : List Nat) (a : Nat),
      L.reverse.foldl (fun x d => x * base + d) a =
        a * base ^ L.length + Nat.ofDigits base L := by
  intro L
  induction L with
  | nil => intro a; simp [Nat.ofDigits_nil]
  | cons d L ih =>
    intro a
    rw [List.reverse_cons, List.foldl_append]
    simp only [List.foldl_cons, List.foldl_nil]
    rw [ih a, Nat.ofDigits_cons, List.length_cons, pow_succ]
    ring

theorem digitsVal_jsDigits (base n : Nat) (hb : 2 ≤ base) :
    digitsVal base (jsDigits base n) = n := by
  rcases Nat.eq_zero_or_pos n with h0 | hpos
  · subst h0; simp [jsDigits, digitsVal]
  · rw [jsDigits_eq base n hb hpos]
    have h := foldl_mul_add_reverse base (Nat.digits base n) 0
    simpa [digitsVal, Nat.ofDigits_digits] using h

theorem parseIntBase_map_eq_digitsVal (base : Nat) (m : Nat → Char) :
    ∀ (l : List Nat) (a : Nat), (∀ d ∈ l, charVal (m d) = d) →
      (l.map m).foldl (fun x c => x * base + charVal c) a =
        l.foldl (fun x d => x * base + d) a := by
  intro l
  induction l with
  | nil => intro a _; rfl
  | cons d l ih =>
    intro a h
    simp only [List.map_cons, List.foldl_cons]
    rw [h d (by simp)]
    exact ih _ (fun x hx => h x (by simp [hx]))

theorem charVal_digitChar (d : Nat) (hd : d < 16) : charVal (digitChar d) = d := by
  interval_cases d <;> decide

theorem charVal_jsToUpper_digitChar (d : Nat) (hd : d < 16) :
    charVal (jsToUpper (digitChar d)) = d := by
  interval_cases d <;> decide

theorem isDigit_or_isUpper_jsToUpper_digitChar (d : Nat) (hd : d < 16) :
    (jsToUpper (digitChar d)).isDigit ∨ (jsToUpper (digitChar d)).isUpper := by
  interval_cases d <;> decide

theorem padStart_map_zero (w : Nat) (m : Nat → Char) (hm : m 0 = '0') (l : List Nat) :
    padStart w '0' (l.map m) = (List.replicate (w - l.length) 0 ++ l).map m := by
  simp [padStart, List.map_append, List.map_replicate, hm]

theorem padStart_length (w : Nat) (c : Char) (s : List Char) :
    (padStart w c s).length = max w s.length := by
  simp [padStart]
  omega

theorem intToStringBase_natCast (base n : Nat) :
    intToStringBase base (n : Int) = natToStringBase base n := by
  rw [intToStringBase, if_neg (not_lt.mpr (Int.natCast_nonneg n)), Int.natAbs_ofNat]

/-- C2: for b in [1,16] and n in [0, 2^b - 1], formatNumber renders n in binary as a
string of length exactly b that parses back to n in base 2, and in hexadecimal as
an uppercase string of exactly ceil(b/4) digits that parses back to n in base 16. -/
theorem formatNumber_roundtrip (b n : Nat) (hb1 : 1 ≤ b) (hb16 : b ≤ 16)
    (hn : n ≤ 2 ^ b - 1) :
    (formatNumber (n : Int) .binary b).length = b ∧
    parseIntBase 2 (formatNumber (n : Int) .binary b) = n ∧
    (formatNumber (n : Int) .hexadecimal b).length = (b + 3) / 4 ∧
    (∀ c ∈ formatNumber (n : Int) .hexadecimal b, c.isDigit ∨ c.isUpper) ∧
    parseIntBase 16 (formatNumber (n : Int) .hexadecimal b) = n := by
  have hpow : 0 < 2 ^ b := Nat.two_pow_pos b
  have hn2 : n < 2 ^ b := by omega
  have hbinlen : (jsDigits 2 n).length ≤ b :=
    jsDigits_length_le 2 n b (by omega) hb1 hn2
  have hbin : formatNumber (n : Int) .binary b =
      (List.replicate (b - (jsDigits 2 n).length) 0 ++ jsDigits 2 n).map digitChar := by
    rw [show formatNumber (n : Int) .binary b =
        padStart b '0' (intToStringBase 2 (n : Int)) from rfl,
      intToStringBase_natCast, natToStringBase,
      padStart_map_zero b digitChar (by decide)]
  set k := (b + 3) / 4 with hk
  have hk1 : 1 ≤ k := by omega
  have hb4k : b ≤ 4 * k := by omega
  have hn16 : n < 16 ^ k := by
    calc n < 2 ^ b := hn2
    _ ≤ 2 ^ (4 * k) := Nat.pow_le_pow_right (by omega) hb4k
    _ = 16 ^ k := by rw [pow_mul]; norm_num
  have hhexlen : (jsDigits 16 n).length ≤ k :=
    jsDigits_length_le 16 n k (by omega) hk1 hn16
  have hhex : formatNumber (n : Int) .hexadecimal b =
      (List.replicate (k - (jsDigits 16 n).length) 0 ++ jsDigits 16 n).map
        (jsToUpper ∘ digitChar) := by
    rw [show formatNumber (n : Int) .hexadecimal b =
        padStart ((b + 3) / 4) '0' ((intToStringBase 16 (n : Int)).map jsToUpper) from rfl,
      intToStringBase_natCast, natToStringBase, List.map_map,
      padStart_map_zero ((b + 3) / 4) (jsToUpper ∘ digitChar) (by decide)]
  refine ⟨?_, ?_, ?_, ?_, ?_⟩
  · rw [hbin, List.length_map, List.length_append, List.length_replicate]
    omega
  · rw [hbin]
    have hall : ∀ d ∈ List.replicate (b - (jsDigits 2 n).length) 0 ++ jsDigits 2 n,
        charVal (digitChar d) = d := by
      intro d hd
      rcases List.mem_append.mp hd with h | h
      · rw [List.eq_of_mem_replicate h]; decide
      · exact charVal_digitChar d
          (lt_of_lt_of_le (jsDigits_lt_base 2 n (by omega) d h) (by omega))
    rw [parseIntBase, parseIntBase_map_eq_digitsVal 2 digitChar _ 0 hall]
    show digitsVal 2 _ = n
    rw [digitsVal_append_zeros, digitsVal_jsDigits 2 n (by omega)]
  · rw [hhex, List.length_map, List.length_append, List.length_replicate]
    omega
  · rw [hhex]
    intro c hc
    obtain ⟨d, hd, rfl⟩ := List.mem_map.mp hc
    have hd16 : d < 16 := by
      rcases List.mem_append.mp hd with h | h
      · rw [List.eq_of_mem_replicate h]; omega
      · exact jsDigits_lt_base 16 n (by omega) d h
    simpa using isDigit_or_isUpper_jsToUpper_digitChar d hd16
  · rw [hhex]
    have hall : ∀ d ∈ List.replicate (k - (jsDigits 16 n).length) 0 ++ jsDigits 16 n,
        charVal ((jsToUpper ∘ digitChar) d) = d := by
      intro d hd
      rcases List.mem_append.mp hd with h | h
      · rw [List.eq_of_mem_replicate h]; decide
      · exact charVal_jsToUpper_digitChar d (jsDigits_lt_base 16 n (by omega) d h)
    rw [parseIntBase, parseIntBase_map_eq_digitsVal 16 (jsToUpper ∘ digitChar) _ 0 hall]
    show digitsVal 16 _ = n
    rw [digitsVal_append_zeros, digitsVal_jsDigits 16 n (by omega)]

/-- Witness for C2 at b = 8, n = 255. -/
theorem formatNumber_roundtrip_witness :
    ((1 : Nat) ≤ 8 ∧ (8 : Nat) ≤ 16 ∧ (255 : Nat) ≤ 2 ^ 8 - 1) ∧
    ((formatNumber (255 : Int) .binary 8).length = 8 ∧
      parseIntBase 2 (formatNumber (255 : Int) .binary 8) = 255 ∧
      (formatNumber (255 : Int) .hexadecimal 8).length = (8 + 3) / 4 ∧
      (∀ c ∈ formatNumber (255 : Int) .hexadecimal 8, c.isDigit ∨ c.isUpper) ∧
      parseIntBase 16 (formatNumber (255 : Int) .hexadecimal 8) = 255) :=
  ⟨⟨by decide, by decide, by decide⟩,
    formatNumber_roundtrip 8 255 (by decide) (by decide) (by decide)⟩

/-- C7 counterexample: formatting an out-of-range value does not fail; formatNumber
of src/frontend/app.js returns the 9-character string 100101100 for n = 300 in
binary with bits = 8, and formatNumber of src/unnamed/part_001 returns the string
300; neither reports any error. -/
theorem formatNumber_out_of_range_returns_string :
    2 ^ 8 - 1 < 300 ∧
    formatNumber (300 : Int) .binary 8 = ['1', '0', '0', '1', '0', '1', '1', '0', '0'] ∧
    v2FormatNumber (300 : Int) 8 = ['3', '0', '0'] := by
  refine ⟨by norm_num, by decide, by decide⟩

/-- C7 (amended): formatNumber performs no range validation at all: for every
non-negative n above 2^bits - 1 the binary rendering is still returned as a
string, longer than bits characters, and it still parses back to n; nothing ever
fails with a format error. -/
theorem formatNumber_no_range_check (bits n : Nat) (h : 2 ^ bits - 1 < n) :
    parseIntBase 2 (formatNumber (n : Int) .binary bits) = n ∧
    bits < (formatNumber (n : Int) .binary bits).length := by
  have hpow : 0 < 2 ^ bits := Nat.two_pow_pos bits
  have hbin : formatNumber (n : Int) .binary bits =
      (List.replicate (bits - (jsDigits 2 n).length) 0 ++ jsDigits 2 n).map digitChar := by
    rw [show formatNumber (n : Int) .binary bits =
        padStart bits '0' (intToStringBase 2 (n : Int)) from rfl,
      intToStringBase_natCast, natToStringBase,
      padStart_map_zero bits digitChar (by decide)]
  constructor
  · rw [hbin]
    have hall : ∀ d ∈ List.replicate (bits - (jsDigits 2 n).length) 0 ++ jsDigits 2 n,
        charVal (digitChar d) = d := by
      intro d hd
      rcases List.mem_append.mp hd with hmem | hmem
      · rw [List.eq_of_mem_replicate hmem]; decide
      · exact charVal_digitChar d
          (lt_of_lt_of_le (jsDigits_lt_base 2 n (by omega) d hmem) (by omega))
    rw [parseIntBase, parseIntBase_map_eq_digitsVal 2 digitChar _ 0 hall]
    show digitsVal 2 _ = n
    rw [digitsVal_append_zeros, digitsVal_jsDigits 2 n (by omega)]
  · rw [hbin, List.length_map, List.length_append, List.length_replicate]
    have := jsDigits_length_pos 2 n (k := bits) (by omega) (by omega)
    omega

/-- Witness for the amended C7 at bits = 8, n = 300. -/
theorem formatNumber_no_range_check_witness :
    2 ^ 8 - 1 < 300 ∧
    (parseIntBase 2 (formatNumber (300 : Int) .binary 8) = 300 ∧
      8 < (formatNumber (300 : Int) .binary 8).length) :=
  ⟨by decide, formatNumber_no_range_check 8 300 (by decide)⟩

/- ## C9: the simulated quantum circuit and the 32-bit JS operators -/

theorem toInt32_of_lt (x : Int) (h0 : 0 ≤ x) (hlt : x < 2 ^ 31) : toInt32 x = x := by
  have h32 : x < 2 ^ 32 := lt_trans hlt (by norm_num)
  simp only [toInt32]
  rw [Int.emod_eq_of_lt h0 h32, if_pos hlt]

theorem toUint32_of_lt (x : Int) (h0 : 0 ≤ x) (hlt : x < 2 ^ 32) :
    toUint32 x = x.toNat := by
  rw [toUint32, Int.emod_eq_of_lt h0 hlt]

set_option maxRecDepth 4096 in
theorem jsOr_one_shiftLeft_lt (q : Int) (bit numBits : Nat) (hb : bit < numBits)
    (h31 : numBits ≤ 31) (h0 : 0 ≤ q) (hlt : q < (2 : Int) ^ numBits) :
    0 ≤ jsOr q (jsShiftLeft 1 bit) ∧
      jsOr q (jsShiftLeft 1 bit) < (2 : Int) ^ numBits := by
  have hcastpow : (((2 : Nat) ^ numBits : Nat) : Int) = (2 : Int) ^ numBits := by
    push_cast
    ring
  have hpowle : (2 : Nat) ^ numBits ≤ 2 ^ 31 := Nat.pow_le_pow_right (by omega) h31
  have hbitlt : (2 : Nat) ^ bit < 2 ^ numBits := Nat.pow_lt_pow_right (by omega) hb
  have hshift : jsShiftLeft 1 bit = ((2 ^ bit : Nat) : Int) := by
    rw [jsShiftLeft]
    have h132 : toUint32 1 = 1 := by decide
    rw [h132, Nat.mod_eq_of_lt (by omega : bit < 32), Nat.one_shiftLeft]
    exact toInt32_of_lt _ (by positivity)
      (by exact_mod_cast lt_of_lt_of_le hbitlt hpowle)
  have hq32 : toUint32 q = q.toNat := by
    refine toUint32_of_lt q h0 ?_
    calc q < (2 : Int) ^ numBits := hlt
    _ ≤ 2 ^ 32 := by
      rw [← hcastpow]
      exact_mod_cast le_trans hpowle (by norm_num)
  have hp : toUint32 ((2 ^ bit : Nat) : Int) = 2 ^ bit := by
    rw [toUint32_of_lt _ (by positivity)
      (by exact_mod_cast lt_of_lt_of_le hbitlt (le_trans hpowle (by norm_num)))]
    exact Int.toNat_ofNat _
  have hqlt : q.toNat < 2 ^ numBits := by omega
  rw [hshift, jsOr, hq32, hp]
  have hlor : q.toNat ||| 2 ^ bit < 2 ^ numBits := Nat.or_lt_two_pow hqlt hbitlt
  have hlor0 : (0 : Int) ≤ ((q.toNat ||| 2 ^ bit : Nat) : Int) := Int.natCast_nonneg _
  have hlor31 : ((q.toNat ||| 2 ^ bit : Nat) : Int) < 2 ^ 31 := by
    exact_mod_cast lt_of_lt_of_le hlor hpowle
  rw [toInt32_of_lt ((q.toNat ||| 2 ^ bit : Nat) : Int) hlor0 hlor31]
  constructor
  · exact hlor0
  · rw [← hcastpow]
    exact_mod_cast hlor

theorem foldl_jsOr_lt (rb : Nat → Bool) (numBits : Nat) (h31 : numBits ≤ 31) :
    ∀ (l : List Nat) (q : Int), (∀ b ∈ l, b < numBits) → 0 ≤ q →
      q < (2 : Int) ^ numBits →
      0 ≤ l.foldl (fun quantumNumber bit =>
          if rb bit then jsOr quantumNumber (jsShiftLeft 1 bit) else quantumNumber) q ∧
      l.foldl (fun quantumNumber bit =>
          if rb bit then jsOr quantumNumber (jsShiftLeft 1 bit) else quantumNumber) q <
        (2 : Int) ^ numBits := by
  intro l
  induction l with
  | nil =>
    intro q _ h0 hlt
    exact ⟨h0, hlt⟩
  | cons b t ih =>
    intro q h h0 hlt
    simp only [List.foldl_cons]
    by_cases hrb : rb b
    · simp only [hrb, if_true]
      have hstep := jsOr_one_shiftLeft_lt q b numBits (h b (by simp)) h31 h0 hlt
      exact ih _ (fun x hx => h x (by simp [hx])) hstep.1 hstep.2
    · simp only [hrb, if_false]
      exact ih _ (fun x hx => h x (by simp [hx])) h0 hlt

/-- C9 counterexample: at numBits = 32 (reachable, since part_003 performs no input
validation) drawing bit 31 makes the JS 32-bit operators wrap: 1 << 31 is the
negative int32 -2147483648, so the sampled number is negative and the claimed
invariant 0 <= n <= 2^numBits - 1 fails. -/
theorem simulateQuantumCircuit_wraps_at_32 :
    simulateQuantumCircuit 32 1 (fun i bit => bit == 31) = [-2147483648] ∧
    ¬ (0 ≤ (-2147483648 : Int)) := by
  refine ⟨by decide, by decide⟩

/-- C9 (amended): for every numBits in [1, 31] and any sample count,
simulateQuantumCircuit returns exactly numSamples numbers, each in
[0, 2^numBits - 1]: only bit positions below numBits are ever ORed in, and below
bit 31 the 32-bit operators do not wrap.  (At numBits of 32 or more the sign bit
can be set and the result can be negative; the UI-validated range numBits <= 16
lies inside the safe range.) -/
theorem simulateQuantumCircuit_range (numBits numSamples : Nat)
    (randBit : Nat → Nat → Bool) (h1 : 1 ≤ numBits) (h31 : numBits ≤ 31) :
    (simulateQuantumCircuit numBits numSamples randBit).length = numSamples ∧
    ∀ n ∈ simulateQuantumCircuit numBits numSamples randBit,
      0 ≤ n ∧ n ≤ (2 : Int) ^ numBits - 1 := by
  constructor
  · simp [simulateQuantumCircuit]
  · intro n hn
    simp only [simulateQuantumCircuit, List.mem_map] at hn
    obtain ⟨i, -, rfl⟩ := hn
    have hpos : (0 : Int) < 2 ^ numBits := by positivity
    have hfold := foldl_jsOr_lt (randBit i) numBits h31 (List.range numBits) 0
      (fun b hb => List.mem_range.mp hb) le_rfl hpos
    exact ⟨hfold.1, by omega⟩

/-- Witness for the amended C9 at numBits = 3, numSamples = 2 with a concrete bit
oracle. -/
theorem simulateQuantumCircuit_range_witness :
    (simulateQuantumCircuit 3 2 (fun i bit => (i + bit) % 2 == 0)).length = 2 ∧
    ∀ n ∈ simulateQuantumCircuit 3 2 (fun i bit => (i + bit) % 2 == 0),
      0 ≤ n ∧ n ≤ (2 : Int) ^ 3 - 1 :=
  simulateQuantumCircuit_range 3 2 (fun i bit => (i + bit) % 2 == 0) (by decide)
    (by decide)

/-- C10: the part_002 Clear action nulls the last-result slot, leaves the input
fields untouched, and in the cleared state both export actions are no-ops (each
checks lastResponse first and produces no download). -/
theorem part2Clear_frame_and_exports (st : Part2State) :
    (part2Clear st).lastResponse = none ∧
    (part2Clear st).numBitsField = st.numBitsField ∧
    (part2Clear st).numSamplesField = st.numSamplesField ∧
    (part2Clear st).baseUrlField = st.baseUrlField ∧
    part2DownloadJson (part2Clear st) = none ∧
    part2DownloadCsv (part2Clear st) = none :=
  ⟨rfl, rfl, rfl, rfl, rfl, rfl⟩

/- ## C1, C3, C5, C6: handler behaviour -/

/-- A prior successful response held in the lastResponse slot. -/
def c1Prior : GenPayload :=
  { emptyPayload with
    numbers := some [3]
    statistics := some { mean := some 3, std := some 0, min := some 3, max := some 3 }
    parameters := some { num_bits := some 8, max_value := some 255 }
    source := some "ANU" }

/-- A fresh response with numbers but no statistics object: rendering it throws
inside renderStats, after the slot has been overwritten. -/
def c1NoStats : GenPayload :=
  { emptyPayload with numbers := some [1, 2], source := some "SIMULATOR" }

/-- C1 counterexample: in the script.js generate handler, a successful fetch whose
subsequent processing fails (here: renderStats throws because the payload has no
statistics object, so an error is surfaced) nevertheless leaves the NEW response
in the lastResponse slot, not the value held before the attempt. -/
theorem scriptGenClick_overwrites_on_render_failure :
    (scriptGenClick (some c1Prior) (.success c1NoStats)).2.isSome = true ∧
    (scriptGenClick (some c1Prior) (.success c1NoStats)).1 ≠ some c1Prior ∧
    (scriptGenClick (some c1Prior) (.success c1NoStats)).1 = some c1NoStats := by
  refine ⟨rfl, by decide, rfl⟩

/-- C1 (amended): the lastResponse slot is left unchanged when the backend call
itself fails (and, in the part_001 variant, when the status check fails), but it
is overwritten as soon as those checks pass and BEFORE rendering: in script.js a
rendering failure therefore leaves the new response in the slot. -/
theorem genClick_slot_update (last : Option GenPayload) (outcome : FetchOutcome) :
    (scriptGenClick last outcome).1 =
      (match outcome with
        | .failure _ => last
        | .success data => some data) ∧
    (v2GenClick last outcome).1 =
      (match outcome with
        | .failure _ => last
        | .success data =>
          if data.status = some "success" then some data else last) := by
  constructor
  · cases outcome with
    | failure m => rfl
    | success data =>
      cases hs : data.statistics <;> cases hp : data.parameters <;>
        cases hn : data.numbers <;> simp [scriptGenClick, hs, hp, hn]
  · cases outcome with
    | failure m => rfl
    | success data =>
      by_cases h : data.status = some "success" <;> simp [v2GenClick, h]

/-- C3 counterexample: the assets/app.js builder, given the out-of-range numBits
value 0 (with a valid sample count), does NOT report a validation error: it clamps
numBits to 1 and calls the backend. -/
theorem assetsBuildRequest_clamps_zero_bits :
    assetsBuildRequest (some 0) (some 10) = .request 1 10 ∧
    ¬ (1 ≤ (0 : Int) ∧ (0 : Int) ≤ 16) := by
  refine ⟨by decide, by decide⟩

/-- C3 (amended): both request builders reject NaN inputs, numBits above 16, and
out-of-range sample counts before any network call; but numBits below 1 is
rejected only by the frontend/app.js builder, while the assets/app.js builder
silently clamps it to 1 and then does call the backend. -/
theorem buildRequest_validation (b s : Int) :
    (16 < b →
      frontendBuildRequest (some b) (some s) =
        .error "Number of bits must be between 1 and 16" ∧
      assetsBuildRequest (some b) (some s) =
        .error "numBits too large for safe visualization. Max allowed is 16.") ∧
    (b < 1 →
      frontendBuildRequest (some b) (some s) =
        .error "Number of bits must be between 1 and 16" ∧
      (1 ≤ s → s ≤ 5000 →
        assetsBuildRequest (some b) (some s) = .request 1 s)) ∧
    (frontendBuildRequest none (some s) =
        .error "Number of bits must be between 1 and 16" ∧
      assetsBuildRequest none (some s) =
        .error "Please enter valid numeric values.") ∧
    ((s < 1 ∨ 5000 < s) → 1 ≤ b → b ≤ 16 →
      frontendBuildRequest (some b) (some s) =
        .error "Number of samples must be between 1 and 5000" ∧
      assetsBuildRequest (some b) (some s) =
        .error "Quantity must be between 1 and 5000") := by
  refine ⟨?_, ?_, ?_, ?_⟩
  · intro hb
    constructor
    · simp only [frontendBuildRequest]
      rw [if_pos (by omega : b < 1 ∨ 16 < b)]
    · simp only [assetsBuildRequest]
      rw [if_neg (by omega : ¬ b < 1), if_pos (by omega : (16 : Int) < b)]
  · intro hb
    constructor
    · simp only [frontendBuildRequest]
      rw [if_pos (by omega : b < 1 ∨ 16 < b)]
    · intro hs1 hs2
      simp only [assetsBuildRequest]
      rw [if_pos (by omega : b < 1), if_neg (by decide : ¬ (16 : Int) < 1),
        if_neg (by omega : ¬ (s < 1 ∨ 5000 < s))]
  · exact ⟨rfl, rfl⟩
  · intro hs hb1 hb2
    constructor
    · simp only [frontendBuildRequest]
      rw [if_neg (by omega : ¬ (b < 1 ∨ 16 < b)), if_pos (by omega : s < 1 ∨ 5000 < s)]
    · simp only [assetsBuildRequest]
      rw [if_neg (by omega : ¬ b < 1), if_neg (by omega : ¬ (16 : Int) < b),
        if_pos (by omega : s < 1 ∨ 5000 < s)]

/-- Witness for the amended C3: numBits 20 is rejected, numBits 0 leads to a
backend call with clamped bits in the assets variant, samples 6000 is rejected. -/
theorem buildRequest_validation_witness :
    frontendBuildRequest (some 20) (some 10) =
      .error "Number of bits must be between 1 and 16" ∧
    assetsBuildRequest (some 0) (some 10) = .request 1 10 ∧
    frontendBuildRequest (some 8) (some 6000) =
      .error "Number of samples must be between 1 and 5000" :=
  ⟨((buildRequest_validation 20 10).1 (by decide)).1,
    ((buildRequest_validation 0 10).2.1 (by decide)).2 (by decide) (by decide),
    ((buildRequest_validation 8 6000).2.2.2 (Or.inr (by decide)) (by decide) (by decide)).1⟩

/-- Statistics object carried under the statistics key of the C5 payload. -/
def c5Stats1 : StatFields := { mean := some 1, std := some 0, min := some 1, max := some 1 }

/-- Statistics object carried under the stats key of the C5 payload. -/
def c5Stats2 : StatFields := { mean := some 2, std := some 0, min := some 2, max := some 2 }

/-- A payload carrying BOTH a statistics and a stats object with different values. -/
def c5Payload : GenPayload :=
  { emptyPayload with
    status := some "success"
    numbers := some [1, 2]
    statistics := some c5Stats1
    stats := some c5Stats2 }

/-- C5 counterexample: for a payload that carries both a statistics and a stats
object, the part_001 pipeline displays the values under stats, not the values
under statistics. -/
theorem displayedStatistics_prefers_stats :
    c5Payload.statistics = some c5Stats1 ∧
    c5Payload.stats = some c5Stats2 ∧
    displayedStatistics c5Payload = c5Stats2 ∧
    displayedStatistics c5Payload ≠ c5Stats1 := by
  refine ⟨rfl, rfl, rfl, by decide⟩

/-- C5 (amended): the part_001 generate handler extracts statistics by trying the
stats field FIRST, then the statistics field, and finally falls back to the
top-level fields of the payload itself; no statistics are ever computed locally
from the numbers array. -/
theorem displayedStatistics_order (data : GenPayload) :
    displayedStatistics data =
      (match data.stats with
        | some s => s
        | none =>
          match data.statistics with
          | some s => s
          | none =>
            { mean := data.mean, std := data.std, min := data.min, max := data.max }) := by
  cases hst : data.stats with
  | some s => simp [displayedStatistics, genStatsCandidate, updateStatisticsSelect, hst]
  | none =>
    cases hss : data.statistics with
    | some s =>
      simp [displayedStatistics, genStatsCandidate, updateStatisticsSelect, hst, hss]
    | none =>
      simp [displayedStatistics, genStatsCandidate, updateStatisticsSelect, hst, hss]

/-- A payload with valid numbers that simply omits the status field. -/
def c6Payload : GenPayload := { emptyPayload with numbers := some [5, 0, 3] }

/-- C6 counterexample: a payload that omits the status field while containing valid
numbers is REJECTED by the part_001 generate handler (data.status is undefined,
which differs from the success marker, so it throws), contradicting the claim that
normalization succeeds when status is merely absent. -/
theorem v2GenClick_rejects_missing_status :
    c6Payload.status = none ∧
    c6Payload.numbers = some [5, 0, 3] ∧
    (v2GenClick none (.success c6Payload)).2 = some "Generation error" ∧
    (v2GenClick none (.success c6Payload)).1 = none := by
  refine ⟨rfl, rfl, by decide, by decide⟩

/-- C6 (amended): the part_001 generate handler raises an error whenever the payload
does not carry status equal to the string success; in particular a payload that
merely omits the status field is rejected even when it contains valid numbers,
and the lastResponse slot is left unchanged. -/
theorem v2GenClick_requires_explicit_success (last : Option GenPayload)
    (data : GenPayload) (h : data.status = none) :
    (v2GenClick last (.success data)).1 = last ∧
    (v2GenClick last (.success data)).2 =
      some ((data.message).getD "Generation error") := by
  have hne : ¬ data.status = some "success" := by rw [h]; simp
  constructor <;> simp [v2GenClick, hne]

/-- Witness for the amended C6 at the empty payload. -/
theorem v2GenClick_requires_explicit_success_witness :
    (v2GenClick none (.success emptyPayload)).1 = none ∧
    (v2GenClick none (.success emptyPayload)).2 = some "Generation error" := by
  have h := v2GenClick_requires_explicit_success none emptyPayload rfl
  exact ⟨h.1, h.2⟩

/- ## Helper lemmas: counting loops -/

theorem bump_length (c : List Nat) (i : Nat) : (bump c i).length = c.length := by
  simp [bump]

theorem bump_cons_succ (a : Nat) (t : List Nat) (j : Nat) :
    bump (a :: t) (j + 1) = a :: bump t j := rfl

theorem bump_cons_zero (a : Nat) (t : List Nat) : bump (a :: t) 0 = (a + 1) :: t := rfl

theorem bump_sum (c : List Nat) (i : Nat) (h : i < c.length) :
    (bump c i).sum = c.sum + 1 := by
  induction c generalizing i with
  | nil => simp at h
  | cons a t ih =>
    cases i with
    | zero =>
      rw [bump_cons_zero, List.sum_cons, List.sum_cons]
      omega
    | succ j =>
      rw [bump_cons_succ, List.sum_cons, List.sum_cons, ih j (by simpa using h)]
      omega

theorem bump_getD_self (c : List Nat) (i : Nat) (h : i < c.length) :
    (bump c i).getD i 0 = c.getD i 0 + 1 := by
  induction c generalizing i with
  | nil => simp at h
  | cons a t ih =>
    cases i with
    | zero => rfl
    | succ j => exact ih j (by simpa using h)

theorem bump_getD_ne (c : List Nat) (i j : Nat) (h : j ≠ i) :
    (bump c i).getD j 0 = c.getD j 0 := by
  induction c generalizing i j with
  | nil => simp [bump]
  | cons a t ih =>
    cases i with
    | zero =>
      cases j with
      | zero => exact absurd rfl h
      | succ k => rfl
    | succ i2 =>
      cases j with
      | zero => rfl
      | succ k => exact ih i2 k (by omega)

theorem tally_cons {α : Type} (f : α → Option Nat) (x : α) (t : List α)
    (init : List Nat) :
    tally f (x :: t) init =
      tally f t (match f x with | some i => bump init i | none => init) := rfl

theorem tally_length {α : Type} (f : α → Option Nat) (xs : List α) :
    ∀ init : List Nat, (tally f xs init).length = init.length := by
  induction xs with
  | nil => intro init; rfl
  | cons x t ih =>
    intro init
    rw [tally_cons]
    cases hfx : f x with
    | none => simpa [hfx] using ih init
    | some i =>
      simp only [hfx]
      rw [ih (bump init i), bump_length]

theorem tally_sum {α : Type} (f : α → Option Nat) (xs : List α) :
    ∀ init : List Nat, (∀ x i, f x = some i → i < init.length) →
      (tally f xs init).sum = init.sum + xs.countP (fun x => (f x).isSome) := by
  induction xs with
  | nil => intro init _; simp [tally]
  | cons x t ih =>
    intro init hf
    rw [tally_cons, List.countP_cons]
    cases hfx : f x with
    | none =>
      simp only [hfx]
      rw [ih init hf]
      simp [hfx]
    | some i =>
      simp only [hfx]
      rw [ih (bump init i) (fun y j hy => by rw [bump_length]; exact hf y j hy),
        bump_sum init i (hf x i hfx)]
      simp only [hfx, Option.isSome_some, if_true]
      omega

theorem tally_getD {α : Type} (f : α → Option Nat) (xs : List α) (j : Nat) :
    ∀ init : List Nat, (∀ x i, f x = some i → i < init.length) →
      (tally f xs init).getD j 0 =
        init.getD j 0 + xs.countP (fun x => f x == some j) := by
  induction xs with
  | nil => intro init _; simp [tally]
  | cons x t ih =>
    intro init hf
    rw [tally_cons, List.countP_cons]
    cases hfx : f x with
    | none =>
      simp only [hfx]
      rw [ih init hf]
      simp [hfx]
    | some i =>
      simp only [hfx]
      rw [ih (bump init i) (fun y m hy => by rw [bump_length]; exact hf y m hy)]
      by_cases hij : j = i
      · subst hij
        rw [bump_getD_self init j (hf x j hfx)]
        simp only [hfx, beq_self_eq_true, if_true]
        omega
      · rw [bump_getD_ne init i j hij]
        have : ((some i == some j) : Bool) = false := by
          simp [beq_iff_eq]
          omega
        simp [hfx, this]

/- ## C4 and C8: histogram properties -/

theorem sum_replicate_zero (n : Nat) : (List.replicate n (0 : Nat)).sum = 0 := by
  rw [List.sum_replicate, smul_zero]

theorem clampBucket_le (idx : Int) : clampBucket idx ≤ 255 := by
  rw [clampBucket]
  exact Int.toNat_le.mpr (max_le (by norm_num) (min_le_left _ _))

theorem branch_condition_iff (bits : Nat) (h16 : bits ≤ 16) :
    2 ^ bits - 1 ≤ 4096 ↔ bits ≤ 12 := by
  interval_cases bits <;> decide

theorem natCast_two_pow_sub_one (bits : Nat) :
    (((2 ^ bits - 1 : Nat)) : Int) = (2 : Int) ^ bits - 1 := by
  rw [Nat.cast_sub Nat.one_le_two_pow]
  push_cast
  ring

theorem exact_isSome_count (numbers : List (Option Int)) (mv : Nat) :
    (numbers.filterMap id).countP
        (fun n => (if 0 ≤ n ∧ n ≤ (mv : Int) then some n.toNat else none).isSome) =
      numbers.countP (fun x =>
        match x with
        | some n => decide (0 ≤ n ∧ n ≤ (mv : Int))
        | none => false) := by
  rw [List.countP_filterMap]
  apply List.countP_congr
  intro x _
  cases x with
  | none => simp
  | some n =>
    by_cases hc : 0 ≤ n ∧ n ≤ (mv : Int) <;> simp [hc]

theorem bucket_isSome_count (numbers : List (Option Int)) (mv : Nat) :
    (numbers.filterMap id).countP
        (fun n => (if n < 0 ∨ (mv : Int) < n then none
                   else some (clampBucket (bucketIdx n mv))).isSome) =
      numbers.countP (fun x =>
        match x with
        | some n => decide (0 ≤ n ∧ n ≤ (mv : Int))
        | none => false) := by
  rw [List.countP_filterMap]
  apply List.countP_congr
  intro x _
  cases x with
  | none => simp
  | some n =>
    by_cases hc : n < 0 ∨ (mv : Int) < n
    · have hc2 : ¬ (0 ≤ n ∧ n ≤ (mv : Int)) := by omega
      simp [hc, hc2]
    · have hc2 : 0 ≤ n ∧ n ≤ (mv : Int) := by omega
      simp [hc, hc2]

/-- The finite values of 100000 exceed the 16-bit range 0..65535. -/
def c4Numbers : List (Option Int) := [some 100000]

set_option maxRecDepth 8192 in
/-- C4 counterexample: the assets/app.js bucketed branch counts an out-of-range
finite value (here 100000 with numBits = 16, range 0..65535): the bucket counts
sum to 1 although zero input values are in range, because its guard checks only
Number.isFinite and the clamp forces the value into bucket 255. -/
theorem assetsBucket_counts_out_of_range :
    ((assetsRenderDistributionGraph c4Numbers (some 16)).map fun hist =>
        hist.counts.sum) = some 1 ∧
    (c4Numbers.countP fun x =>
      match x with
      | some n => decide (0 ≤ n ∧ n ≤ (2 : Int) ^ 16 - 1)
      | none => false) = 0 := by
  refine ⟨by decide, by decide⟩

/-- C4 (amended): the sum of the histogram counts equals the number of finite
in-range input values for the part_001 renderDistributionGraph (both branches)
and for the exact branch of the assets/app.js version; the assets/app.js
bucketed branch instead counts EVERY finite input value, clamping out-of-range
ones into the edge buckets. -/
theorem histogram_sum_invariant (numbers : List (Option Int)) (bits : Nat)
    (h1 : 1 ≤ bits) (h16 : bits ≤ 16) :
    (∀ hist, v2RenderDistributionGraph numbers (some (bits : Int)) = some hist →
      hist.counts.sum = numbers.countP fun x =>
        match x with
        | some n => decide (0 ≤ n ∧ n ≤ (2 : Int) ^ bits - 1)
        | none => false) ∧
    (2 ^ bits - 1 ≤ 4096 →
      ∀ hist, assetsRenderDistributionGraph numbers (some (bits : Int)) = some hist →
        hist.counts.sum = numbers.countP fun x =>
          match x with
          | some n => decide (0 ≤ n ∧ n ≤ (2 : Int) ^ bits - 1)
          | none => false) ∧
    (4096 < 2 ^ bits - 1 →
      ∀ hist, assetsRenderDistributionGraph numbers (some (bits : Int)) = some hist →
        hist.counts.sum = numbers.countP fun x => x.isSome) := by
  have hpow : 0 < 2 ^ bits := Nat.two_pow_pos bits
  have hcast := natCast_two_pow_sub_one bits
  refine ⟨?_, ?_, ?_⟩
  · intro hist heq
    simp only [v2RenderDistributionGraph, Int.toNat_ofNat] at heq
    rw [if_neg (by omega : ¬ ((bits : Int) < 1))] at heq
    simp only [← hcast]
    by_cases hbr : bits ≤ BUCKET_THRESHOLD_BITS ∧ 2 ^ bits - 1 ≤ 4096
    · rw [if_pos hbr] at heq
      obtain rfl := Option.some.inj heq
      rw [tally_sum _ _ _ ?hf]
      case hf =>
        intro n i hni
        rw [List.length_replicate]
        by_cases hc : 0 ≤ n ∧ n ≤ ((2 ^ bits - 1 : Nat) : Int)
        · rw [if_pos hc] at hni
          have := Option.some.inj hni
          have h2 := Int.toNat_le.mpr hc.2
          omega
        · rw [if_neg hc] at hni
          exact absurd hni (by simp)
      rw [exact_isSome_count numbers (2 ^ bits - 1), sum_replicate_zero, Nat.zero_add]
    · rw [if_neg hbr] at heq
      obtain rfl := Option.some.inj heq
      rw [tally_sum _ _ _ ?hf2]
      case hf2 =>
        intro n i hni
        rw [List.length_replicate]
        by_cases hc : n < 0 ∨ ((2 ^ bits - 1 : Nat) : Int) < n
        · rw [if_pos hc] at hni
          exact absurd hni (by simp)
        · rw [if_neg hc] at hni
          have := Option.some.inj hni
          have h2 := clampBucket_le (bucketIdx n (2 ^ bits - 1))
          omega
      rw [bucket_isSome_count numbers (2 ^ bits - 1), sum_replicate_zero, Nat.zero_add]
  · intro hsmall hist heq
    simp only [assetsRenderDistributionGraph, Int.toNat_ofNat] at heq
    rw [if_neg (by omega : ¬ ((bits : Int) < 1)),
      if_pos (⟨(branch_condition_iff bits h16).mp hsmall, hsmall⟩ :
        bits ≤ 12 ∧ 2 ^ bits - 1 ≤ 4096)] at heq
    obtain rfl := Option.some.inj heq
    simp only [← hcast]
    rw [tally_sum _ _ _ ?hf3]
    case hf3 =>
      intro x i hxi
      rw [List.length_replicate]
      cases x with
      | none => exact absurd hxi (by simp)
      | some n =>
        by_cases hc : 0 ≤ n ∧ n ≤ ((2 ^ bits - 1 : Nat) : Int)
        · simp only [if_pos hc] at hxi
          have := Option.some.inj hxi
          have h2 := Int.toNat_le.mpr hc.2
          omega
        · simp only [if_neg hc] at hxi
          exact absurd hxi (by simp)
    have hcong : numbers.countP (fun x =>
        (match x with
          | some n => if 0 ≤ n ∧ n ≤ ((2 ^ bits - 1 : Nat) : Int) then some n.toNat else none
          | none => none).isSome) =
        numbers.countP (fun x =>
          match x with
          | some n => decide (0 ≤ n ∧ n ≤ ((2 ^ bits - 1 : Nat) : Int))
          | none => false) := by
      apply List.countP_congr
      intro x _
      cases x with
      | none => simp
      | some n =>
        by_cases hc : 0 ≤ n ∧ n ≤ ((2 ^ bits - 1 : Nat) : Int) <;> simp [hc]
    rw [hcong, sum_replicate_zero, Nat.zero_add]
  · intro hlarge hist heq
    simp only [assetsRenderDistributionGraph, Int.toNat_ofNat] at heq
    rw [if_neg (by omega : ¬ ((bits : Int) < 1)),
      if_neg (by
        intro hand
        exact absurd ((branch_condition_iff bits h16).mpr hand.1) (by omega))] at heq
    obtain rfl := Option.some.inj heq
    rw [tally_sum _ _ _ ?hf4]
    case hf4 =>
      intro x i hxi
      rw [List.length_replicate]
      cases x with
      | none => exact absurd hxi (by simp)
      | some n =>
        simp only at hxi
        have := Option.some.inj hxi
        have h2 := clampBucket_le (bucketIdx n (2 ^ bits - 1))
        omega
    have hcong : numbers.countP (fun x =>
        (match x with
          | some n => some (clampBucket (bucketIdx n (2 ^ bits - 1)))
          | none => none).isSome) =
        numbers.countP (fun x => x.isSome) := by
      apply List.countP_congr
      intro x _
      cases x <;> simp
    rw [hcong, sum_replicate_zero, Nat.zero_add]

/-- Witness for the amended C4: numBits 3 (exact branch) on both versions and
numBits 16 (bucketed branch) on the assets version, with a mix of in-range,
out-of-range and non-finite inputs. -/
theorem histogram_sum_invariant_witness :
    (∀ hist, v2RenderDistributionGraph [some 1, some 99, none, some 5]
        (some ((3 : Nat) : Int)) = some hist →
      hist.counts.sum = [some 1, some 99, none, some (5 : Int)].countP fun x =>
        match x with
        | some n => decide (0 ≤ n ∧ n ≤ (2 : Int) ^ 3 - 1)
        | none => false) ∧
    (∀ hist, assetsRenderDistributionGraph [some 70000, none, some 2]
        (some ((16 : Nat) : Int)) = some hist →
      hist.counts.sum = [some 70000, none, some (2 : Int)].countP fun x => x.isSome) :=
  ⟨(histogram_sum_invariant [some 1, some 99, none, some 5] 3 (by decide) (by decide)).1,
    (histogram_sum_invariant [some 70000, none, some 2] 16 (by decide)
      (by decide)).2.2 (by decide)⟩

theorem getD_replicate_zero (n i : Nat) : (List.replicate n (0 : Nat)).getD i 0 = 0 := by
  induction n generalizing i with
  | zero => simp
  | succ m ih =>
    cases i with
    | zero => rfl
    | succ j => exact ih j

theorem exact_index_count (numbers : List (Option Int)) (mv i : Nat) (hi : i ≤ mv) :
    (numbers.filterMap id).countP
        (fun n => (if 0 ≤ n ∧ n ≤ (mv : Int) then some n.toNat else none) == some i) =
      numbers.countP (fun x => x == some (i : Int)) := by
  rw [List.countP_filterMap]
  apply List.countP_congr
  intro x _
  cases x with
  | none => simp
  | some n =>
    simp only [id_eq, Option.map_some', Option.getD_some, beq_iff_eq, Option.some.injEq]
    by_cases hc : 0 ≤ n ∧ n ≤ (mv : Int)
    · simp only [if_pos hc, Option.some.injEq]
      omega
    · simp only [if_neg hc]
      constructor
      · intro hfalse
        exact absurd hfalse (by simp)
      · intro hne
        exact absurd hne (by omega)

theorem bucket_index_count (numbers : List (Option Int)) (mv j : Nat) :
    (numbers.filterMap id).countP
        (fun n => (if n < 0 ∨ (mv : Int) < n then none
                   else some (clampBucket (bucketIdx n mv))) == some j) =
      numbers.countP (fun x =>
        match x with
        | some n => decide (0 ≤ n ∧ n ≤ (mv : Int)) && (clampBucket (bucketIdx n mv) == j)
        | none => false) := by
  rw [List.countP_filterMap]
  apply List.countP_congr
  intro x _
  cases x with
  | none => simp
  | some n =>
    simp only [id_eq, Option.map_some', Option.getD_some]
    by_cases hc : n < 0 ∨ (mv : Int) < n
    · have hc2 : ¬ (0 ≤ n ∧ n ≤ (mv : Int)) := by omega
      simp [hc, hc2]
    · have hc2 : 0 ≤ n ∧ n ≤ (mv : Int) := by omega
      simp [hc, hc2]

theorem assets_exact_index_count (numbers : List (Option Int)) (mv i : Nat)
    (hi : i ≤ mv) :
    numbers.countP
        (fun x => (match x with
          | some n => if 0 ≤ n ∧ n ≤ (mv : Int) then some n.toNat else none
          | none => none) == some i) =
      numbers.countP (fun x => x == some (i : Int)) := by
  apply List.countP_congr
  intro x _
  cases x with
  | none => simp
  | some n =>
    simp only [beq_iff_eq, Option.some.injEq]
    by_cases hc : 0 ≤ n ∧ n ≤ (mv : Int)
    · simp only [if_pos hc, Option.some.injEq]
      omega
    · simp only [if_neg hc]
      constructor
      · intro hfalse
        exact absurd hfalse (by simp)
      · intro hne
        exact absurd hne (by omega)

theorem assets_bucket_index_count (numbers : List (Option Int)) (mv j : Nat) :
    numbers.countP
        (fun x => (match x with
          | some n => some (clampBucket (bucketIdx n mv))
          | none => none) == some j) =
      numbers.countP (fun x =>
        match x with
        | some n => (clampBucket (bucketIdx n mv) == j)
        | none => false) := by
  apply List.countP_congr
  intro x _
  cases x <;> simp

/-- C8: both renderDistributionGraph implementations select their branch exactly by
the claimed value-range condition (2^numBits - 1 at most 4096, equivalently
numBits at most 12): the exact branch produces one bucket per value with decimal
labels and counts[i] the frequency of value i, and the bucketed branch produces
exactly 256 buckets with each in-range value assigned to bucket
clamp(floor(value / maxValue * 255)); the assets version additionally clamps
out-of-range finite values into the edge buckets (its bucket characterization
below has no range guard). -/
theorem renderDistributionGraph_branches (numbers : List (Option Int)) (bits : Nat)
    (h1 : 1 ≤ bits) (h16 : bits ≤ 16) :
    (2 ^ bits - 1 ≤ 4096 →
      (v2RenderDistributionGraph numbers (some (bits : Int))).isSome = true ∧
      ∀ hist, v2RenderDistributionGraph numbers (some (bits : Int)) = some hist →
        hist.counts.length = 2 ^ bits ∧
        hist.labels = (List.range (2 ^ bits)).map (natToStringBase 10) ∧
        ∀ i, i < 2 ^ bits → hist.counts.getD i 0 =
          numbers.countP fun x => x == some (i : Int)) ∧
    (4096 < 2 ^ bits - 1 →
      (v2RenderDistributionGraph numbers (some (bits : Int))).isSome = true ∧
      ∀ hist, v2RenderDistributionGraph numbers (some (bits : Int)) = some hist →
        hist.counts.length = 256 ∧
        ∀ j, j < 256 → hist.counts.getD j 0 =
          numbers.countP fun x =>
            match x with
            | some n => decide (0 ≤ n ∧ n ≤ (2 : Int) ^ bits - 1) &&
                (clampBucket (bucketIdx n (2 ^ bits - 1)) == j)
            | none => false) ∧
    (2 ^ bits - 1 ≤ 4096 →
      (assetsRenderDistributionGraph numbers (some (bits : Int))).isSome = true ∧
      ∀ hist, assetsRenderDistributionGraph numbers (some (bits : Int)) = some hist →
        hist.counts.length = 2 ^ bits ∧
        hist.labels = (List.range (2 ^ bits)).map (natToStringBase 10) ∧
        ∀ i, i < 2 ^ bits → hist.counts.getD i 0 =
          numbers.countP fun x => x == some (i : Int)) ∧
    (4096 < 2 ^ bits - 1 →
      (assetsRenderDistributionGraph numbers (some (bits : Int))).isSome = true ∧
      ∀ hist, assetsRenderDistributionGraph numbers (some (bits : Int)) = some hist →
        hist.counts.length = 256 ∧
        ∀ j, j < 256 → hist.counts.getD j 0 =
          numbers.countP fun x =>
            match x with
            | some n => (clampBucket (bucketIdx n (2 ^ bits - 1)) == j)
            | none => false) := by
  have hpow : 0 < 2 ^ bits := Nat.two_pow_pos bits
  have hcast := natCast_two_pow_sub_one bits
  have hbig : ¬ ((bits : Int) < 1) := by omega
  refine ⟨?_, ?_, ?_, ?_⟩
  · intro hsmall
    have h12 : bits ≤ BUCKET_THRESHOLD_BITS := (branch_condition_iff bits h16).mp hsmall
    constructor
    · simp only [v2RenderDistributionGraph, Int.toNat_ofNat]
      rw [if_neg hbig, if_pos (⟨h12, hsmall⟩ :
        bits ≤ BUCKET_THRESHOLD_BITS ∧ 2 ^ bits - 1 ≤ 4096)]
      rfl
    intro hist heq
    simp only [v2RenderDistributionGraph, Int.toNat_ofNat] at heq
    rw [if_neg hbig, if_pos (⟨h12, hsmall⟩ :
      bits ≤ BUCKET_THRESHOLD_BITS ∧ 2 ^ bits - 1 ≤ 4096)] at heq
    obtain rfl := Option.some.inj heq
    refine ⟨?_, ?_, ?_⟩
    · rw [tally_length, List.length_replicate]
      omega
    · have hlen : (tally
          (fun n => if 0 ≤ n ∧ n ≤ (((2 ^ bits - 1 : Nat)) : Int) then some n.toNat
            else none)
          (numbers.filterMap id) (List.replicate (2 ^ bits - 1 + 1) 0)).length =
          2 ^ bits := by
        rw [tally_length, List.length_replicate]
        omega
      rw [hlen]
    · intro i hilt
      rw [tally_getD _ _ _ _ ?hf]
      case hf =>
        intro n m hnm
        rw [List.length_replicate]
        by_cases hc : 0 ≤ n ∧ n ≤ (((2 ^ bits - 1 : Nat)) : Int)
        · rw [if_pos hc] at hnm
          have := Option.some.inj hnm
          have h2 := Int.toNat_le.mpr hc.2
          omega
        · rw [if_neg hc] at hnm
          exact absurd hnm (by simp)
      rw [getD_replicate_zero, Nat.zero_add,
        exact_index_count numbers (2 ^ bits - 1) i (by omega)]
  · intro hlarge
    have hnbr : ¬ (bits ≤ BUCKET_THRESHOLD_BITS ∧ 2 ^ bits - 1 ≤ 4096) := by
      intro hand
      have := (branch_condition_iff bits h16).mpr hand.1
      omega
    constructor
    · simp only [v2RenderDistributionGraph, Int.toNat_ofNat]
      rw [if_neg hbig, if_neg hnbr]
      rfl
    intro hist heq
    simp only [v2RenderDistributionGraph, Int.toNat_ofNat] at heq
    rw [if_neg hbig, if_neg hnbr] at heq
    obtain rfl := Option.some.inj heq
    refine ⟨?_, ?_⟩
    · rw [tally_length, List.length_replicate]
    · intro j hjlt
      rw [tally_getD _ _ _ _ ?hf2]
      case hf2 =>
        intro n m hnm
        rw [List.length_replicate]
        by_cases hc : n < 0 ∨ (((2 ^ bits - 1 : Nat)) : Int) < n
        · rw [if_pos hc] at hnm
          exact absurd hnm (by simp)
        · rw [if_neg hc] at hnm
          have := Option.some.inj hnm
          have h2 := clampBucket_le (bucketIdx n (2 ^ bits - 1))
          omega
      simp only [← hcast]
      rw [getD_replicate_zero, Nat.zero_add,
        bucket_index_count numbers (2 ^ bits - 1) j]
  · intro hsmall
    have h12 : bits ≤ 12 := (branch_condition_iff bits h16).mp hsmall
    constructor
    · simp only [assetsRenderDistributionGraph, Int.toNat_ofNat]
      rw [if_neg hbig, if_pos (⟨h12, hsmall⟩ : bits ≤ 12 ∧ 2 ^ bits - 1 ≤ 4096)]
      rfl
    intro hist heq
    simp only [assetsRenderDistributionGraph, Int.toNat_ofNat] at heq
    rw [if_neg hbig, if_pos (⟨h12, hsmall⟩ : bits ≤ 12 ∧ 2 ^ bits - 1 ≤ 4096)] at heq
    obtain rfl := Option.some.inj heq
    refine ⟨?_, ?_, ?_⟩
    · rw [tally_length, List.length_replicate]
      omega
    · have hn1 : 2 ^ bits - 1 + 1 = 2 ^ bits := by omega
      rw [hn1]
    · intro i hilt
      rw [tally_getD _ _ _ _ ?hf3]
      case hf3 =>
        intro x m hxm
        rw [List.length_replicate]
        cases x with
        | none => exact absurd hxm (by simp)
        | some n =>
          by_cases hc : 0 ≤ n ∧ n ≤ (((2 ^ bits - 1 : Nat)) : Int)
          · simp only [if_pos hc] at hxm
            have := Option.some.inj hxm
            have h2 := Int.toNat_le.mpr hc.2
            omega
          · simp only [if_neg hc] at hxm
            exact absurd hxm (by simp)
      rw [getD_replicate_zero, Nat.zero_add,
        assets_exact_index_count numbers (2 ^ bits - 1) i (by omega)]
  · intro hlarge
    have hnbr : ¬ (bits ≤ 12 ∧ 2 ^ bits - 1 ≤ 4096) := by
      intro hand
      have := (branch_condition_iff bits h16).mpr hand.1
      omega
    constructor
    · simp only [assetsRenderDistributionGraph, Int.toNat_ofNat]
      rw [if_neg hbig, if_neg hnbr]
      rfl
    intro hist heq
    simp only [assetsRenderDistributionGraph, Int.toNat_ofNat] at heq
    rw [if_neg hbig, if_neg hnbr] at heq
    obtain rfl := Option.some.inj heq
    refine ⟨?_, ?_⟩
    · rw [tally_length, List.length_replicate]
    · intro j hjlt
      rw [tally_getD _ _ _ _ ?hf4]
      case hf4 =>
        intro x m hxm
        rw [List.length_replicate]
        cases x with
        | none => exact absurd hxm (by simp)
        | some n =>
          simp only at hxm
          have := Option.some.inj hxm
          have h2 := clampBucket_le (bucketIdx n (2 ^ bits - 1))
          omega
      rw [getD_replicate_zero, Nat.zero_add,
        assets_bucket_index_count numbers (2 ^ bits - 1) j]

/-- Witness for C8: exact branch at numBits 2 and bucketed branch at numBits 13 on
the part_001 version, at concrete inputs. -/
theorem renderDistributionGraph_branches_witness :
    ((v2RenderDistributionGraph [some 1, some 3, some 1]
        (some ((2 : Nat) : Int))).isSome = true ∧
      ∀ hist, v2RenderDistributionGraph [some 1, some 3, some 1]
          (some ((2 : Nat) : Int)) = some hist →
        hist.counts.length = 2 ^ 2 ∧
        hist.labels = (List.range (2 ^ 2)).map (natToStringBase 10) ∧
        ∀ i, i < 2 ^ 2 → hist.counts.getD i 0 =
          [some 1, some 3, some (1 : Int)].countP fun x => x == some (i : Int)) ∧
    ((v2RenderDistributionGraph [some 9000]
        (some ((13 : Nat) : Int))).isSome = true ∧
      ∀ hist, v2RenderDistributionGraph [some 9000]
          (some ((13 : Nat) : Int)) = some hist →
        hist.counts.length = 256 ∧
        ∀ j, j < 256 → hist.counts.getD j 0 =
          [some (9000 : Int)].countP fun x =>
            match x with
            | some n => decide (0 ≤ n ∧ n ≤ (2 : Int) ^ 13 - 1) &&
                (clampBucket (bucketIdx n (2 ^ 13 - 1)) == j)
            | none => false) :=
  ⟨(renderDistributionGraph_branches [some 1, some 3, some 1] 2 (by decide)
      (by decide)).1 (by decide),
    (renderDistributionGraph_branches [some 9000] 13 (by decide)
      (by decide)).2.1 (by decide)⟩
